import Mathlib

/-!
Verification of the change-detection / recompilation-scheduling core of
backend/agent.py (registry change detector, schema change detector,
recompilation scheduler, workflow cache persistence).

Modelling conventions:
- Python/JSON values are modelled by the inductive JVal.
- Machine-level strings are Lean String (in this toolchain a list of chars),
  so byte-identity of serialized output is String equality.
- hashlib.sha256 is modelled as an injective function on strings
  (collision-free abstraction): comparing digests is comparing inputs.
- File system state relevant to agent.py is the structure FS; a missing file
  is Option.none, a present-but-unparseable JSON file is some none at the
  parsed layer, and the workflow cache file is kept at the byte (String)
  layer because one claim is specifically about parse failure on load.
-/

namespace AgentSpec

/-- Values of the JSON data model used by agent.py (checks.json entries,
workflow-cache payloads, DataFrame cells). Objects keep insertion order,
as Python dicts do. -/
inductive JVal where
  | null
  | bool (b : Bool)
  | num (n : Int)
  | str (s : String)
  | arr (xs : List JVal)
  | obj (kvs : List (String × JVal))
deriving Repr

mutual

/-- Decidable equality for JVal (the nested inductive prevents deriving). -/
def decEqJ : (a b : JVal) → Decidable (a = b)
  | .null, .null => isTrue rfl
  | .bool a, .bool b =>
    match decEq a b with
    | isTrue h => isTrue (h ▸ rfl)
    | isFalse h => isFalse (fun hh => h (JVal.bool.inj hh))
  | .num a, .num b =>
    match decEq a b with
    | isTrue h => isTrue (h ▸ rfl)
    | isFalse h => isFalse (fun hh => h (JVal.num.inj hh))
  | .str a, .str b =>
    match decEq a b with
    | isTrue h => isTrue (h ▸ rfl)
    | isFalse h => isFalse (fun hh => h (JVal.str.inj hh))
  | .arr a, .arr b =>
    match decEqArr a b with
    | isTrue h => isTrue (h ▸ rfl)
    | isFalse h => isFalse (fun hh => h (JVal.arr.inj hh))
  | .obj a, .obj b =>
    match decEqObj a b with
    | isTrue h => isTrue (h ▸ rfl)
    | isFalse h => isFalse (fun hh => h (JVal.obj.inj hh))
  | .null, .bool _ => isFalse (fun h => nomatch h)
  | .null, .num _ => isFalse (fun h => nomatch h)
  | .null, .str _ => isFalse (fun h => nomatch h)
  | .null, .arr _ => isFalse (fun h => nomatch h)
  | .null, .obj _ => isFalse (fun h => nomatch h)
  | .bool _, .null => isFalse (fun h => nomatch h)
  | .bool _, .num _ => isFalse (fun h => nomatch h)
  | .bool _, .str _ => isFalse (fun h => nomatch h)
  | .bool _, .arr _ => isFalse (fun h => nomatch h)
  | .bool _, .obj _ => isFalse (fun h => nomatch h)
  | .num _, .null => isFalse (fun h => nomatch h)
  | .num _, .bool _ => isFalse (fun h => nomatch h)
  | .num _, .str _ => isFalse (fun h => nomatch h)
  | .num _, .arr _ => isFalse (fun h => nomatch h)
  | .num _, .obj _ => isFalse (fun h => nomatch h)
  | .str _, .null => isFalse (fun h => nomatch h)
  | .str _, .bool _ => isFalse (fun h => nomatch h)
  | .str _, .num _ => isFalse (fun h => nomatch h)
  | .str _, .arr _ => isFalse (fun h => nomatch h)
  | .str _, .obj _ => isFalse (fun h => nomatch h)
  | .arr _, .null => isFalse (fun h => nomatch h)
  | .arr _, .bool _ => isFalse (fun h => nomatch h)
  | .arr _, .num _ => isFalse (fun h => nomatch h)
  | .arr _, .str _ => isFalse (fun h => nomatch h)
  | .arr _, .obj _ => isFalse (fun h => nomatch h)
  | .obj _, .null => isFalse (fun h => nomatch h)
  | .obj _, .bool _ => isFalse (fun h => nomatch h)
  | .obj _, .num _ => isFalse (fun h => nomatch h)
  | .obj _, .str _ => isFalse (fun h => nomatch h)
  | .obj _, .arr _ => isFalse (fun h => nomatch h)

/-- Decidable equality for lists of JVal. -/
def decEqArr : (a b : List JVal) → Decidable (a = b)
  | [], [] => isTrue rfl
  | [], _ :: _ => isFalse (fun h => nomatch h)
  | _ :: _, [] => isFalse (fun h => nomatch h)
  | x :: xs, y :: ys =>
    match decEqJ x y with
    | isFalse h1 => isFalse (fun hh => h1 (List.cons.inj hh).1)
    | isTrue h1 =>
      match decEqArr xs ys with
      | isTrue h2 => isTrue (by rw [h1, h2])
      | isFalse h2 => isFalse (fun hh => h2 (List.cons.inj hh).2)

/-- Decidable equality for JSON object entry lists. -/
def decEqObj : (a b : List (String × JVal)) → Decidable (a = b)
  | [], [] => isTrue rfl
  | [], _ :: _ => isFalse (fun h => nomatch h)
  | _ :: _, [] => isFalse (fun h => nomatch h)
  | (k, v) :: xs, (l, w) :: ys =>
    match decEq k l with
    | isFalse h0 => isFalse (fun hh => h0 (congrArg Prod.fst (List.cons.inj hh).1))
    | isTrue h0 =>
      match decEqJ v w with
      | isFalse h1 => isFalse (fun hh => h1 (congrArg Prod.snd (List.cons.inj hh).1))
      | isTrue h1 =>
        match decEqObj xs ys with
        | isTrue h2 => isTrue (by rw [h0, h1, h2])
        | isFalse h2 => isFalse (fun hh => h2 (List.cons.inj hh).2)

end

instance : DecidableEq JVal := decEqJ

/-- Lexicographic comparison of character lists by code point (the string
ordering Python uses for sorted and comparisons). -/
def chLe : List Char → List Char → Bool
  | [], _ => true
  | _ :: _, [] => false
  | a :: as, b :: bs =>
    if a.toNat < b.toNat then true
    else if b.toNat < a.toNat then false
    else chLe as bs

/-- String order used by the model (code-point lexicographic). -/
def strLe (a b : String) : Bool := chLe a.data b.data

/-- Model of Python str.strip with no argument: drop leading and trailing
whitespace. -/
def pyStrip (s : String) : String :=
  String.mk (((s.data.dropWhile Char.isWhitespace).reverse.dropWhile Char.isWhitespace).reverse)

/-- Model of Python str.lower (ASCII case folding). -/
def pyLower (s : String) : String := String.mk (s.data.map Char.toLower)

/-- Auxiliary accumulator walk for pySplitComma. -/
def splitCommaAux : List Char → List Char → List String
  | [], acc => [String.mk acc.reverse]
  | c :: cs, acc =>
    if c = ',' then String.mk acc.reverse :: splitCommaAux cs []
    else splitCommaAux cs (c :: acc)

/-- Model of Python str.split with a comma separator: every comma starts a
new piece, adjacent commas yield empty pieces, and the empty string
yields one empty piece. -/
def pySplitComma (s : String) : List String := splitCommaAux s.data []

/-- Sort a list by a String-valued key, with Python-compatible stability
(equal keys keep their input order); used to model sorted(...) and
DataFrame.sort_values. -/
def sortOn {α : Type} (key : α → String) (l : List α) : List α :=
  List.insertionSort (fun a b => strLe (key a) (key b) = true) l

/-- Opening brace character. -/
def braceO : Char := Char.ofNat 123

/-- Closing brace character. -/
def braceC : Char := Char.ofNat 125

/-- Escape one character as inside a JSON string literal (the escapes
json.dumps emits for the characters our model covers). -/
def escChar (c : Char) : String :=
  if c = '"' then "\\\""
  else if c = '\\' then "\\\\"
  else if c = '\n' then "\\n"
  else if c = '\t' then "\\t"
  else if c = '\r' then "\\r"
  else String.singleton c

/-- Serialize a string as a JSON string literal. -/
def dumpStr (s : String) : String :=
  "\"" ++ String.join (s.data.map escChar) ++ "\""

mutual

/-- Serialize a JVal the way json.dumps does with default separators
(comma-space and colon-space), keeping object key order. -/
def dumpJ : JVal → String
  | .null => "null"
  | .bool true => "true"
  | .bool false => "false"
  | .num n => toString n
  | .str s => dumpStr s
  | .arr xs => "[" ++ dumpArr xs ++ "]"
  | .obj kvs => String.singleton braceO ++ dumpObj kvs ++ String.singleton braceC

/-- Serialize the element list of a JSON array. -/
def dumpArr : List JVal → String
  | [] => ""
  | [x] => dumpJ x
  | x :: y :: xs => dumpJ x ++ ", " ++ dumpArr (y :: xs)

/-- Serialize the key-value list of a JSON object. -/
def dumpObj : List (String × JVal) → String
  | [] => ""
  | [(k, v)] => dumpStr k ++ ": " ++ dumpJ v
  | (k, v) :: p :: xs => dumpStr k ++ ": " ++ dumpJ v ++ ", " ++ dumpObj (p :: xs)

end

mutual

/-- Recursively sort every object key list; composing with dumpJ gives the
sort_keys=True behaviour of json.dumps. -/
def normJ : JVal → JVal
  | .null => .null
  | .bool b => .bool b
  | .num n => .num n
  | .str s => .str s
  | .arr xs => .arr (normArr xs)
  | .obj kvs => .obj (sortOn Prod.fst (normObj kvs))

/-- Normalize each element of a JSON array. -/
def normArr : List JVal → List JVal
  | [] => []
  | x :: xs => normJ x :: normArr xs

/-- Normalize each value of a JSON object entry list. -/
def normObj : List (String × JVal) → List (String × JVal)
  | [] => []
  | (k, v) :: xs => (k, normJ v) :: normObj xs

end

/-- Model of json.dumps(x, sort_keys=True). -/
def dumpSortedJ (v : JVal) : String := dumpJ (normJ v)

/-- Model of the Python str() conversion for parsed JSON values, as used in
f-strings (strings print bare, True/False/None capitalized). Compound
values are approximated by their JSON dump; check ids and names are
strings or numbers in practice. -/
def pyStr : JVal → String
  | .str s => s
  | .num n => toString n
  | .bool true => "True"
  | .bool false => "False"
  | .null => "None"
  | .arr xs => dumpJ (.arr xs)
  | .obj kvs => dumpJ (.obj kvs)

/-- Drop leading JSON whitespace. -/
def skipWs : List Char → List Char
  | c :: cs => if c = ' ' ∨ c = '\n' ∨ c = '\t' ∨ c = '\r' then skipWs cs else c :: cs
  | [] => []

/-- Expect a literal character sequence; return the remaining input. -/
def expectLit : List Char → List Char → Option (List Char)
  | [], cs => some cs
  | _ :: _, [] => none
  | l :: ls, c :: cs => if c = l then expectLit ls cs else none

/-- Parse the body of a JSON string literal (after the opening quote),
returning the decoded string and the input after the closing quote. -/
def parseStrBody : List Char → Option (String × List Char)
  | [] => none
  | c :: cs =>
    if c = '"' then some ("", cs)
    else if c = '\\' then
      match cs with
      | [] => none
      | e :: cs2 =>
        let d? : Option String :=
          if e = '"' then some "\""
          else if e = '\\' then some "\\"
          else if e = '/' then some "/"
          else if e = 'n' then some "\n"
          else if e = 't' then some "\t"
          else if e = 'r' then some "\r"
          else none
        match d? with
        | none => none
        | some d => (parseStrBody cs2).map (fun p => (d ++ p.1, p.2))
    else (parseStrBody cs).map (fun p => (String.singleton c ++ p.1, p.2))

/-- Split leading decimal digits from the input. -/
def takeDigits : List Char → List Char × List Char
  | [] => ([], [])
  | c :: cs =>
    if c.isDigit then
      let p := takeDigits cs
      (c :: p.1, p.2)
    else ([], c :: cs)

/-- Numeric value of a digit list. -/
def digitsToNat (ds : List Char) : Nat :=
  ds.foldl (fun a c => a * 10 + (c.toNat - 48)) 0

mutual

/-- Parse one JSON value (integer-only numbers; a subset of json.loads
sufficient for the files this program writes and reads). Fuel bounds the
recursion; jsonParse supplies enough for any input it is given. -/
def parseVal : Nat → List Char → Option (JVal × List Char)
  | 0, _ => none
  | fuel + 1, input =>
    match skipWs input with
    | [] => none
    | c :: rest =>
      if c = 'n' then (expectLit ['u', 'l', 'l'] rest).map (fun r => (JVal.null, r))
      else if c = 't' then (expectLit ['r', 'u', 'e'] rest).map (fun r => (JVal.bool true, r))
      else if c = 'f' then (expectLit ['a', 'l', 's', 'e'] rest).map (fun r => (JVal.bool false, r))
      else if c = '"' then (parseStrBody rest).map (fun p => (JVal.str p.1, p.2))
      else if c = '[' then
        match skipWs rest with
        | ']' :: r2 => some (JVal.arr [], r2)
        | r2 => (parseItems fuel r2).map (fun p => (JVal.arr p.1, p.2))
      else if c = braceO then
        match skipWs rest with
        | c2 :: r2 => if c2 = braceC then some (JVal.obj [], r2)
                      else (parseFields fuel (c2 :: r2)).map (fun p => (JVal.obj p.1, p.2))
        | [] => none
      else if c = '-' then
        let p := takeDigits rest
        if p.1 = [] then none else some (JVal.num (-(digitsToNat p.1 : Int)), p.2)
      else if c.isDigit then
        let p := takeDigits (c :: rest)
        some (JVal.num (digitsToNat p.1 : Int), p.2)
      else none

/-- Parse the comma-separated elements of a nonempty JSON array, consuming
the closing bracket. -/
def parseItems : Nat → List Char → Option (List JVal × List Char)
  | 0, _ => none
  | fuel + 1, input =>
    match parseVal fuel input with
    | none => none
    | some (v, rest) =>
      match skipWs rest with
      | ',' :: r2 => (parseItems fuel r2).map (fun p => (v :: p.1, p.2))
      | ']' :: r2 => some ([v], r2)
      | _ => none

/-- Parse the comma-separated fields of a nonempty JSON object, consuming
the closing brace. -/
def parseFields : Nat → List Char → Option (List (String × JVal) × List Char)
  | 0, _ => none
  | fuel + 1, input =>
    match skipWs input with
    | '"' :: rest =>
      match parseStrBody rest with
      | none => none
      | some (k, r1) =>
        match skipWs r1 with
        | ':' :: r2 =>
          match parseVal fuel r2 with
          | none => none
          | some (v, r3) =>
            match skipWs r3 with
            | ',' :: r4 => (parseFields fuel r4).map (fun p => ((k, v) :: p.1, p.2))
            | c4 :: r4 => if c4 = braceC then some ([(k, v)], r4) else none
            | [] => none
        | _ => none
    | _ => none

end

/-- Model of json.load on a whole file: parse one value and require only
whitespace afterwards. -/
def jsonParse (s : String) : Option JVal :=
  match parseVal (4 * s.length + 16) s.data with
  | some (v, rest) => if skipWs rest = [] then some v else none
  | none => none

/-- Model of hashlib.sha256 hexdigest as used by agent.py: digests are only
ever compared for equality, so a collision-free hash is abstracted as an
injective function; we use the identity embedding of the input. -/
def _sha256 (s : String) : String := s

/-- Deduplicate keeping the first occurrence of each element (Python set
and dict-key iteration order behaviour for freshly built collections). -/
def firstDedup : List String → List String
  | [] => []
  | x :: xs => x :: (firstDedup xs).filter (fun y => y ≠ x)

/-- One record of checks.json: the fields agent.py reads by name, plus the
remaining descriptive fields of the row. -/
structure Check where
  check_id : JVal
  check_name : JVal
  target_table : JVal
  extra : List (String × JVal)
deriving DecidableEq, Repr

/-- Field list of a check row, in the column order the model fixes for
building the registry DataFrame. -/
def rowPairs (c : Check) : List (String × JVal) :=
  ("check_id", c.check_id) :: ("check_name", c.check_name) ::
    ("target_table", c.target_table) :: c.extra

/-- Model of parse_targets (agent.py lines 142-154): None yields no
targets; a list is stringified, trimmed and lower-cased entrywise; a
string is split on commas with blank pieces dropped, then trimmed and
lower-cased; any other value is stringified whole. -/
def parse_targets : JVal → List String
  | .null => []
  | .arr xs => xs.map (fun x => pyLower (pyStrip (pyStr x)))
  | .str s => ((pySplitComma s).filter (fun x => pyStrip x ≠ "")).map (fun x => pyLower (pyStrip x))
  | v => [pyLower (pyStrip (pyStr v))]

/-- Model of key_for: the cache key is check_id :: check_name through
Python f-string conversion. -/
def key_for (c : Check) : String := pyStr c.check_id ++ "::" ++ pyStr c.check_name

/-- Tabular data: named columns and rows of JSON cells (the model of the
pandas DataFrames agent.py canonicalizes). -/
structure DF where
  cols : List String
  rows : List (List JVal)
deriving DecidableEq, Repr

/-- Cell normalization of _stable_csv line 35: list and dict cells become
their sorted-keys JSON dump; scalars keep their string form. -/
def normCell : JVal → String
  | .arr xs => dumpSortedJ (.arr xs)
  | .obj kvs => dumpSortedJ (.obj kvs)
  | .str s => s
  | .num n => toString n
  | .bool true => "True"
  | .bool false => "False"
  | .null => "None"

/-- Cell of a row under the column labelling of its DataFrame (column
selection by name; absent column yields a null cell). -/
def lookupCell (cols : List String) (row : List JVal) (c : String) : JVal :=
  ((cols.zip row).lookup c).getD .null

/-- Render one CSV field with the minimal quoting rule of to_csv. -/
def csvField (s : String) : String :=
  if s.data.any (fun ch => ch = ',' ∨ ch = '"' ∨ ch = '\n' ∨ ch = '\r') then
    "\"" ++ String.join (s.data.map (fun ch => if ch = '"' then "\"\"" else String.singleton ch)) ++ "\""
  else s

/-- Render one CSV record terminated by a newline. -/
def csvLine (fields : List String) : String :=
  String.intercalate "," (fields.map csvField) ++ "\n"

/-- Row sort key of _stable_csv line 37: all stringified cells joined by a
pipe character. -/
def rowKey (r : List String) : String := String.intercalate "|" r

/-- Rows of a DataFrame after column sorting and cell normalization, in
original row order (the state just before the sort_values of line 38). -/
def normRowsOf (df : DF) : List (List String) :=
  let cols := sortOn id df.cols
  df.rows.map (fun r => cols.map (fun c => normCell (lookupCell df.cols r c)))

/-- Model of _stable_csv (agent.py lines 26-39): sort columns, normalize
list/dict cells to sorted-keys JSON, sort rows by the joined stringified
row, and render CSV with a header line. -/
def _stable_csv (df : DF) : String :=
  csvLine (sortOn id df.cols) ++ String.join ((sortOn rowKey (normRowsOf df)).map csvLine)

/-- Registry DataFrame built from the parsed checks.json list the way
pd.DataFrame builds it: columns are the union of row keys in order of
first appearance; missing cells are null. -/
def registryDF (checks : List Check) : DF :=
  let cols := firstDedup (checks.flatMap (fun c => (rowPairs c).map Prod.fst))
  { cols := cols,
    rows := checks.map (fun c => cols.map (fun k => ((rowPairs c).lookup k).getD .null)) }

/-- Canonical CSV of the current registry (agent.py lines 71-77): the
fixed header sentinel for an empty registry, otherwise _stable_csv of the
registry DataFrame. -/
def registryCsv (checks : List Check) : String :=
  if checks.isEmpty then "check_id\n" else _stable_csv (registryDF checks)

/-- Mapping from table name to observed column list. -/
abbrev Schema := List (String × List String)

/-- Python dict equality for schema snapshots: key order is irrelevant. -/
def dictEqS (a b : Schema) : Bool :=
  decide (sortOn Prod.fst a = sortOn Prod.fst b)

/-- Persistent state agent.py touches: the registry source, the two
snapshot files, the workflow cache file (kept at the byte level), and the
observed data directory (table name to CSV header columns; an absent
table is simply not listed). -/
structure FS where
  checksJson : Option (Option (List Check))
  checksLastCsv : Option String
  schemaCols : Option Schema
  workflowCache : Option String
  data : Schema
deriving DecidableEq, Repr

/-- Observed columns of one table (load_csv: an absent table yields an
empty DataFrame, hence no columns). -/
def loadColsOf (fs : FS) (t : String) : List String :=
  (fs.data.lookup t).getD []

/-- Result of the registry change detector: a fatal load error, or the
change flag with the parsed checks and the possibly updated state. -/
inductive DetectResult where
  | err
  | ok (changed : Bool) (checks : List Check) (fs : FS)
deriving DecidableEq, Repr

/-- Model of detect_checks_changes (agent.py lines 63-93): missing or
unparseable checks.json raises; a missing baseline is written and reported
as changed; otherwise digests are compared and the baseline rewritten only
on a difference. -/
def detect_checks_changes (fs : FS) : DetectResult :=
  match fs.checksJson with
  | none => .err
  | some none => .err
  | some (some checks) =>
    let currentCsv := registryCsv checks
    match fs.checksLastCsv with
    | none => .ok true checks { fs with checksLastCsv := some currentCsv }
    | some lastCsv =>
      if _sha256 currentCsv ≠ _sha256 lastCsv then
        .ok true checks { fs with checksLastCsv := some currentCsv }
      else .ok false checks fs

/-- Model of detect_schema_changes (agent.py lines 96-119): observe the
columns of every table of interest, compare with the stored snapshot by
dict equality, and rewrite the snapshot only on bootstrap or difference. -/
def detect_schema_changes (fs : FS) (tables : List String) : Bool × Schema × FS :=
  let current : Schema := tables.map (fun t => (t, loadColsOf fs t))
  match fs.schemaCols with
  | none => (true, current, { fs with schemaCols := some current })
  | some prev =>
    if dictEqS prev current then (false, current, fs)
    else (true, current, { fs with schemaCols := some current })

/-- Model of load_workflows (agent.py lines 122-129): a missing file and a
file json.load cannot parse both degrade to the empty mapping; otherwise
the parsed value is returned as is. -/
def load_workflows (c : Option String) : JVal :=
  match c with
  | none => .obj []
  | some s =>
    match jsonParse s with
    | some v => v
    | none => .obj []

/-- Entry list of a loaded cache value. A non-object value is never
written by this program; the run model reads it as empty. -/
def wfEntriesOf (v : JVal) : List (String × JVal) :=
  match v with
  | .obj kvs => kvs
  | _ => []

/-- Python dict assignment: replace in place when the key exists, else
append at the end. -/
def dictInsert (m : List (String × JVal)) (k : String) (v : JVal) : List (String × JVal) :=
  if m.any (fun p => p.1 == k) then m.map (fun p => if p.1 == k then (k, v) else p)
  else m ++ [(k, v)]

/-- Bytes save_workflows writes to the cache file (json.dump of the full
mapping; indentation is abstracted, only the written value and the
in-place nature of the write matter to the claims). -/
def save_workflows (wf : List (String × JVal)) : String := dumpJ (.obj wf)

/-- Sequence of file contents a concurrent reader of the cache file can
observe during save_workflows: the previous content, then the empty file
produced by opening with mode w (truncation), then every prefix of the new
content as json.dump streams it out. The write happens at the final path
itself; no temporary file and no rename are involved. -/
def saveWorkflowsStates (old newContent : String) : List String :=
  old :: (List.range (newContent.length + 1)).map (fun i => newContent.take i)

/-- Union of interest (agent.py lines 168-175): all normalized target
tables of the registry, deduplicated and sorted. -/
def targetTablesOf (checks : List Check) : List String :=
  sortOn id (firstDedup (checks.flatMap (fun c => parse_targets c.target_table)))

/-- Model of the scheduling policy of main (agent.py lines 184-212): with
a registry change every check is selected; with only a schema change,
changed_tables is set to the whole union of interest and a check is
selected when its targets meet that set; with no change nothing is
selected. -/
def checksToCompile (checksChanged schemaChanged : Bool) (checks : List Check)
    (targetTables : List String) : List Check :=
  if checksChanged || schemaChanged then
    let changedTables := if schemaChanged then targetTables else []
    checks.filter (fun c =>
      checksChanged || (parse_targets c.target_table).any (fun t => changedTables.contains t))
  else []

/-- Hash stamped into compiled_against (agent.py lines 233 and 242). -/
def runChecksHash (checks : List Check) : String :=
  _sha256 (if checks.isEmpty then "" else _stable_csv (registryDF checks))

/-- Cache entry written for one compiled check: the plan artifact and the
execution artifact, each stamped with the compilation time and the
compiled-against record. -/
def entryFor (now : String) (checksHash : String) (schemaContext : Schema)
    (plan exec : JVal) : JVal :=
  let schemaJ : JVal := .obj (schemaContext.map (fun p => (p.1, .arr (p.2.map JVal.str))))
  let stamp : String → JVal → JVal := fun ty art =>
    .obj [("type", .str ty), ("artifact", art), ("compiled_at", .str now),
          ("compiled_against", .obj [("checks_hash", .str checksHash), ("schema_cols", schemaJ)])]
  .arr [stamp "plan" plan, stamp "execution" exec]

/-- Compilation loop of main (agent.py lines 221-248): each scheduled
check is compiled in order; an oracle failure raises out of the loop (the
run aborts at the failing check), a success replaces that key in the
in-memory mapping. -/
def compileAll (oracle : Check → Option (JVal × JVal)) (now : String)
    (checksHash : String) (schemaContext : Schema) :
    List (String × JVal) → List Check → Except String (List (String × JVal))
  | wf, [] => .ok wf
  | wf, c :: rest =>
    match oracle c with
    | none => .error (key_for c)
    | some pe =>
      compileAll oracle now checksHash schemaContext
        (dictInsert wf (key_for c) (entryFor now checksHash schemaContext pe.1 pe.2)) rest

/-- Outcome of one run of main: a fatal registry load error, an abort
inside the compilation loop, or completion with the scheduled keys and
the number of compiled checks. The state at the moment of the outcome is
carried along. -/
inductive RunResult where
  | regError (fs : FS)
  | compileError (fs : FS) (failedKey : String)
  | ok (fs : FS) (scheduled : List String) (compiled : Nat)
deriving DecidableEq, Repr

/-- Model of main (agent.py lines 160-266) for one run, parameterized by
the compilation oracle (use_agent; none models an exception) and the
timestamp of this run. -/
def runMain (oracle : Check → Option (JVal × JVal)) (now : String) (fs0 : FS) : RunResult :=
  match detect_checks_changes fs0 with
  | .err => .regError fs0
  | .ok checksChanged checks fs1 =>
    let targetTables := targetTablesOf checks
    let r := detect_schema_changes fs1 targetTables
    let schemaChanged := r.1
    let currentSchema := r.2.1
    let fs2 := r.2.2
    let workflows := wfEntriesOf (load_workflows fs2.workflowCache)
    let toCompile := checksToCompile checksChanged schemaChanged checks targetTables
    if toCompile.isEmpty then .ok fs2 [] 0
    else
      let schemaContext := targetTables.map (fun t => (t, (currentSchema.lookup t).getD []))
      match compileAll oracle now (runChecksHash checks) schemaContext workflows toCompile with
      | .error k => .compileError fs2 k
      | .ok wf =>
        .ok { fs2 with workflowCache := some (save_workflows wf) } (toCompile.map key_for)
          toCompile.length

/-- Definition following the spec wording of section 4.3 for comparison:
the precise set of changed tables, that is the tables that are added,
removed, or have a differing column set between the stored snapshot and
the current observation. The code of main does not compute this set. -/
def specChangedTables (prev current : Schema) : List String :=
  (sortOn id (firstDedup (prev.map Prod.fst ++ current.map Prod.fst))).filter
    (fun t => decide (prev.lookup t ≠ current.lookup t))

/-- Definition following the spec wording of rule 2 of section 4.4 for
comparison: select every check whose normalized target set meets the
given changed-table set. -/
def specRule2Scheduled (checks : List Check) (changedTables : List String) : List Check :=
  checks.filter (fun c => (parse_targets c.target_table).any (fun t => changedTables.contains t))

/-- Row of a DataFrame as a canonical association of column name to cell,
sorted by column name (the representation-independent content of the
row). -/
def rowAssoc (cols : List String) (row : List JVal) : List (String × JVal) :=
  sortOn Prod.fst (cols.zip row)

/-- Logical equality of two tables: the same columns up to ordering, and
the same multiset of rows, a row being read as its column-to-cell
association. This is the precise sense in which two tables differ only in
row ordering and/or column ordering. -/
def logicalEq (df1 df2 : DF) : Prop :=
  df1.cols.Perm df2.cols ∧
    (df1.rows.map (rowAssoc df1.cols)).Perm (df2.rows.map (rowAssoc df2.cols))

instance (df1 df2 : DF) : Decidable (logicalEq df1 df2) := by
  unfold logicalEq
  exact instDecidableAnd

/-- Whether the run aborted inside the compilation loop. -/
def RunResult.wasAborted : RunResult → Bool
  | .compileError _ _ => true
  | _ => false

/-- Key of the check whose compilation raised, when the run aborted. -/
def RunResult.failedKey : RunResult → Option String
  | .compileError _ k => some k
  | _ => none

/-- State of the persisted files at the moment the run ended. -/
def RunResult.state : RunResult → FS
  | .regError fs => fs
  | .compileError fs _ => fs
  | .ok fs _ _ => fs

/-- Keys scheduled for recompilation by a completed run. -/
def RunResult.scheduledKeys : RunResult → List String
  | .ok _ s _ => s
  | _ => []

/-!
Concrete fixtures used by witnesses and counterexamples: the check
registry of the testable-properties section of the spec (checks A, B, C
with targets orders; users,orders; events), a data directory for the
three tables, and oracles that always succeed or that fail exactly on
check B.
-/

/-- Check A of the fixtures: target table orders. -/
def checkA : Check :=
  { check_id := .str "A", check_name := .str "A", target_table := .str "orders", extra := [] }

/-- Check B of the fixtures: target tables users and orders. -/
def checkB : Check :=
  { check_id := .str "B", check_name := .str "B", target_table := .str "users,orders", extra := [] }

/-- Check C of the fixtures: target table events. -/
def checkC : Check :=
  { check_id := .str "C", check_name := .str "C", target_table := .str "events", extra := [] }

/-- Fixture registry. -/
def checksABC : List Check := [checkA, checkB, checkC]

/-- Check with a null target_table (no resolvable target). -/
def checkNull : Check :=
  { check_id := .str "N", check_name := .str "N", target_table := .null, extra := [] }

/-- Oracle that compiles every check. -/
def oraOk : Check → Option (JVal × JVal) := fun _ => some (.str "p", .str "e")

/-- Oracle that raises exactly on check B. -/
def oracleFailB : Check → Option (JVal × JVal) :=
  fun c => if key_for c = "B::B" then none else some (.str "p", .str "e")

/-- Observed data directory of the fixtures. -/
def dataABC : Schema := [("events", ["e"]), ("orders", ["o"]), ("users", ["u"])]

/-- Fresh state: registry present, no snapshot and no cache persisted. -/
def fsFresh : FS :=
  { checksJson := some (some checksABC), checksLastCsv := none, schemaCols := none,
    workflowCache := none, data := dataABC }

/-- State after the registry detector alone has run once on the fresh
fixtures (baseline written, schema snapshot still absent). -/
def fsMid : FS :=
  { checksJson := some (some checksABC), checksLastCsv := some (registryCsv checksABC),
    schemaCols := none, workflowCache := none, data := dataABC }

/-- State after both detectors have run once on the fresh fixtures (the
snapshots now match the current registry and schema; the cache file was
never written). -/
def fsStable : FS :=
  { checksJson := some (some checksABC), checksLastCsv := some (registryCsv checksABC),
    schemaCols := some dataABC, workflowCache := none, data := dataABC }

/-- State with registry unchanged, snapshots in place, and the users
table changed on disk (one added column), for the table-affinity
scenario. -/
def fsC1 : FS :=
  { checksJson := some (some checksABC), checksLastCsv := some (registryCsv checksABC),
    schemaCols := some dataABC, workflowCache := none,
    data := [("events", ["e"]), ("orders", ["o"]), ("users", ["u", "email"])] }

/-- Current schema observation of the fsC1 scenario. -/
def curC1 : Schema := [("events", ["e"]), ("orders", ["o"]), ("users", ["u", "email"])]

/-- State whose registry source file is absent. -/
def fsNoReg : FS :=
  { checksJson := none, checksLastCsv := none, schemaCols := none,
    workflowCache := none, data := dataABC }

/-- Table whose two rows share the pipe-joined sort key although the rows
differ (a cell contains the join delimiter). -/
def dfPipe1 : DF :=
  { cols := ["x", "y"], rows := [[.str "a|b", .str "c"], [.str "a", .str "b|c"]] }

/-- The same table as dfPipe1 with its two rows swapped. -/
def dfPipe2 : DF :=
  { cols := ["x", "y"], rows := [[.str "a", .str "b|c"], [.str "a|b", .str "c"]] }

/-- Small table with distinct row keys. -/
def dfPermA : DF :=
  { cols := ["x", "y"],
    rows := [[.str "a", .obj [("k", .num 1), ("j", .num 2)]], [.str "b", .str "d"]] }

/-- The same table as dfPermA with columns and rows permuted. -/
def dfPermB : DF :=
  { cols := ["y", "x"],
    rows := [[.str "d", .str "b"], [.obj [("k", .num 1), ("j", .num 2)], .str "a"]] }

/-!
Helper lemmas about the stable sort, association lookup and the list
combinators of the model.
-/

theorem chLe_cons_iff {a b : Char} {as bs : List Char} :
    chLe (a :: as) (b :: bs) = true ↔
      a.toNat < b.toNat ∨ (a.toNat = b.toNat ∧ chLe as bs = true) := by
  simp only [chLe]
  rcases Nat.lt_trichotomy a.toNat b.toNat with h | h | h
  · simp [h]
  · have h1 : ¬ a.toNat < b.toNat := by omega
    have h2 : ¬ b.toNat < a.toNat := by omega
    simp [h1, h2, h]
  · have h1 : ¬ a.toNat < b.toNat := by omega
    have h2 : a.toNat ≠ b.toNat := by omega
    simp [h1, h, h2]

theorem chLe_total : ∀ (a b : List Char), chLe a b = true ∨ chLe b a = true
  | [], _ => Or.inl rfl
  | _ :: _, [] => Or.inr rfl
  | a :: as, b :: bs => by
    rcases Nat.lt_trichotomy a.toNat b.toNat with h | h | h
    · exact Or.inl (chLe_cons_iff.mpr (Or.inl h))
    · rcases chLe_total as bs with ih | ih
      · exact Or.inl (chLe_cons_iff.mpr (Or.inr ⟨h, ih⟩))
      · exact Or.inr (chLe_cons_iff.mpr (Or.inr ⟨h.symm, ih⟩))
    · exact Or.inr (chLe_cons_iff.mpr (Or.inl h))

theorem chLe_trans : ∀ {a b c : List Char},
    chLe a b = true → chLe b c = true → chLe a c = true
  | [], _, _, _, _ => rfl
  | _ :: _, [], _, h1, _ => by simp [chLe] at h1
  | _ :: _, _ :: _, [], _, h2 => by simp [chLe] at h2
  | x :: as, y :: bs, z :: cs, h1, h2 => by
    rcases chLe_cons_iff.mp h1 with hxy | ⟨hxy, h1t⟩ <;>
      rcases chLe_cons_iff.mp h2 with hyz | ⟨hyz, h2t⟩
    · exact chLe_cons_iff.mpr (Or.inl (Nat.lt_trans hxy hyz))
    · exact chLe_cons_iff.mpr (Or.inl (by omega))
    · exact chLe_cons_iff.mpr (Or.inl (by omega))
    · exact chLe_cons_iff.mpr (Or.inr ⟨by omega, chLe_trans h1t h2t⟩)

theorem chLe_antisymm : ∀ {a b : List Char},
    chLe a b = true → chLe b a = true → a = b
  | [], [], _, _ => rfl
  | [], _ :: _, _, h2 => by simp [chLe] at h2
  | _ :: _, [], h1, _ => by simp [chLe] at h1
  | x :: as, y :: bs, h1, h2 => by
    rcases chLe_cons_iff.mp h1 with hxy | ⟨hxy, h1t⟩ <;>
      rcases chLe_cons_iff.mp h2 with hyx | ⟨hyx, h2t⟩
    · omega
    · omega
    · omega
    · have hx : x = y := Char.ext (UInt32.ext hxy)
      rw [hx, chLe_antisymm h1t h2t]

theorem strLe_total (a b : String) : strLe a b = true ∨ strLe b a = true :=
  chLe_total a.data b.data

theorem strLe_trans {a b c : String} (h1 : strLe a b = true) (h2 : strLe b c = true) :
    strLe a c = true :=
  chLe_trans h1 h2

theorem strLe_antisymm {a b : String} (h1 : strLe a b = true) (h2 : strLe b a = true) :
    a = b := by
  cases a with
  | mk da =>
    cases b with
    | mk db =>
      have : da = db := chLe_antisymm h1 h2
      rw [this]

theorem sortOn_perm {α : Type} (key : α → String) (l : List α) : (sortOn key l).Perm l :=
  List.perm_insertionSort _ _

theorem mem_sortOn {α : Type} (key : α → String) {l : List α} {x : α} :
    x ∈ sortOn key l ↔ x ∈ l :=
  (sortOn_perm key l).mem_iff

theorem sortOn_sorted {α : Type} (key : α → String) (l : List α) :
    (sortOn key l).Sorted (fun a b => strLe (key a) (key b) = true) := by
  haveI : IsTotal α (fun a b => strLe (key a) (key b) = true) :=
    ⟨fun a b => strLe_total (key a) (key b)⟩
  haveI : IsTrans α (fun a b => strLe (key a) (key b) = true) :=
    ⟨fun _ _ _ hab hbc => strLe_trans hab hbc⟩
  exact List.sorted_insertionSort _ _

theorem sorted_key_unique {α : Type} (key : α → String) :
    ∀ {l₁ l₂ : List α}, l₁.Perm l₂ →
      l₁.Sorted (fun a b => strLe (key a) (key b) = true) →
      l₂.Sorted (fun a b => strLe (key a) (key b) = true) →
      (∀ a ∈ l₁, ∀ b ∈ l₁, key a = key b → a = b) → l₁ = l₂ := by
  intro l₁
  induction l₁ with
  | nil =>
    intro l₂ hp _ _ _
    exact (hp.symm.eq_nil).symm
  | cons a t₁ ih =>
    intro l₂ hp hs₁ hs₂ hinj
    cases l₂ with
    | nil => exact absurd hp.eq_nil (by simp)
    | cons b t₂ =>
      have hab : a = b := by
        have ha₂ : a ∈ b :: t₂ := hp.subset (List.mem_cons_self a t₁)
        rcases List.mem_cons.mp ha₂ with h | h
        · exact h
        · have hba : strLe (key b) (key a) = true := List.rel_of_sorted_cons hs₂ a h
          have hb₁ : b ∈ a :: t₁ := hp.symm.subset (List.mem_cons_self b t₂)
          rcases List.mem_cons.mp hb₁ with h2 | h2
          · exact h2.symm
          · have hab2 : strLe (key a) (key b) = true := List.rel_of_sorted_cons hs₁ b h2
            exact hinj a (List.mem_cons_self a t₁) b (List.mem_cons_of_mem a h2)
              (strLe_antisymm hab2 hba)
      subst hab
      have ht : t₁.Perm t₂ := hp.cons_inv
      have := ih ht (List.sorted_cons.mp hs₁).2 (List.sorted_cons.mp hs₂).2
        (fun x hx y hy hk => hinj x (List.mem_cons_of_mem a hx) y (List.mem_cons_of_mem a hy) hk)
      rw [this]

theorem sortOn_eq_of_perm {α : Type} (key : α → String) {l₁ l₂ : List α} (hp : l₁.Perm l₂)
    (hinj : ∀ a ∈ l₁, ∀ b ∈ l₁, key a = key b → a = b) : sortOn key l₁ = sortOn key l₂ := by
  refine sorted_key_unique key ?_ (sortOn_sorted key l₁) (sortOn_sorted key l₂) ?_
  · exact (sortOn_perm key l₁).trans (hp.trans (sortOn_perm key l₂).symm)
  · intro a ha b hb hk
    exact hinj a ((mem_sortOn key).mp ha) b ((mem_sortOn key).mp hb) hk

theorem sortOn_id_eq {l₁ l₂ : List String} (hp : l₁.Perm l₂) : sortOn id l₁ = sortOn id l₂ :=
  sortOn_eq_of_perm id hp (fun _ _ _ _ h => h)

theorem lookup_perm {β : Type} (c : String) :
    ∀ {l₁ l₂ : List (String × β)}, l₁.Perm l₂ → (l₁.map Prod.fst).Nodup →
      l₁.lookup c = l₂.lookup c := by
  intro l₁ l₂ hp
  induction hp with
  | nil => intro _; rfl
  | cons x p ih =>
    intro hnd
    obtain ⟨k, v⟩ := x
    simp only [List.map_cons, List.nodup_cons] at hnd
    simp only [List.lookup_cons]
    cases hck : c == k
    · exact ih hnd.2
    · rfl
  | swap x y t =>
    intro hnd
    obtain ⟨k1, v1⟩ := x
    obtain ⟨k2, v2⟩ := y
    have hnd' := hnd
    simp only [List.map_cons, List.nodup_cons, List.mem_cons, List.mem_map] at hnd'
    have hne : k2 ≠ k1 := by
      intro h
      exact hnd'.1 (Or.inl h)
    simp only [List.lookup_cons]
    cases hc1 : c == k2 <;> cases hc2 : c == k1
    · rfl
    · rfl
    · rfl
    · exact absurd ((beq_iff_eq.mp hc1).symm.trans (beq_iff_eq.mp hc2)) hne
  | trans p₁ p₂ ih₁ ih₂ =>
    intro hnd
    refine (ih₁ hnd).trans (ih₂ ?_)
    exact ((p₁.map Prod.fst).nodup_iff).mp hnd

theorem map_fst_zip_sublist {β : Type} :
    ∀ (cols : List String) (row : List β), ((cols.zip row).map Prod.fst).Sublist cols
  | [], _ => by simp
  | _ :: _, [] => by simp
  | c :: cs, v :: vs => by
    rw [List.zip_cons_cons, List.map_cons]
    exact (map_fst_zip_sublist cs vs).cons₂ c

theorem mem_firstDedup : ∀ {l : List String} {x : String}, x ∈ firstDedup l ↔ x ∈ l := by
  intro l
  induction l with
  | nil => intro x; simp [firstDedup]
  | cons a t ih =>
    intro x
    by_cases hxa : x = a
    · subst hxa
      simp [firstDedup]
    · simp only [firstDedup, List.mem_cons, List.mem_filter]
      constructor
      · rintro (h | ⟨h, _⟩)
        · exact Or.inl h
        · exact Or.inr (ih.mp h)
      · rintro (h | h)
        · exact Or.inl h
        · exact Or.inr ⟨ih.mpr h, by simpa using hxa⟩

theorem mem_targetTablesOf {checks : List Check} {t : String} :
    t ∈ targetTablesOf checks ↔ ∃ c ∈ checks, t ∈ parse_targets c.target_table := by
  simp [targetTablesOf, mem_sortOn, mem_firstDedup, List.mem_flatMap]

theorem contains_eq_true_iff {l : List String} {t : String} :
    l.contains t = true ↔ t ∈ l := by
  simp [List.contains, List.elem_iff]

theorem dictEqS_refl (a : Schema) : dictEqS a a = true := by
  simp [dictEqS]

/-!
Claim C1: table-affinity of the scheduler.
-/

/-- C1 (counterexample): with registry unchanged and only the users table
changed, the code schedules all of A, B, C rather than exactly B; the
precise changed-table set of the spec is exactly the singleton users, and
rule 2 of the spec applied to it would select exactly B. -/
theorem schema_affinity_cex :
    detect_checks_changes fsC1 = .ok false checksABC fsC1 ∧
    (runMain oraOk "T0" fsC1).scheduledKeys = ["A::A", "B::B", "C::C"] ∧
    specChangedTables dataABC curC1 = ["users"] ∧
    (specRule2Scheduled checksABC ["users"]).map key_for = ["B::B"] ∧
    (["A::A", "B::B", "C::C"] : List String) ≠ ["B::B"] := by
  refine ⟨by decide, by decide, by decide, by decide, by decide⟩

/-- C1 (amended): when the registry is unchanged and the schema changed,
main sets changed_tables to the whole union of target tables, so the
scheduled set is every check whose normalized target set is nonempty (in
the A, B, C example: all three checks, not only B). -/
theorem schema_only_schedules_all_targeted (checks : List Check) :
    checksToCompile false true checks (targetTablesOf checks) =
      checks.filter (fun c => !(parse_targets c.target_table).isEmpty) := by
  unfold checksToCompile
  simp only [Bool.false_or, if_true]
  refine List.filter_congr ?_
  intro c hc
  cases hpt : parse_targets c.target_table with
  | nil => simp
  | cons t ts =>
    simp only [List.isEmpty_cons, Bool.not_false]
    refine List.any_eq_true.mpr ⟨t, List.mem_cons_self t ts, ?_⟩
    refine contains_eq_true_iff.mpr ?_
    exact mem_targetTablesOf.mpr ⟨c, hc, by rw [hpt]; exact List.mem_cons_self t ts⟩

/-!
Claim C6: registry-change fallback and bootstrap.
-/

/-- C6: with no persisted registry snapshot the detector always reports a
change (writing the baseline), and whenever the registry changed the
scheduler selects the full check list, whatever the schema flag and the
table set are. -/
theorem registry_change_schedules_all :
    (∀ (fs : FS) (checks : List Check), fs.checksJson = some (some checks) →
       fs.checksLastCsv = none →
       detect_checks_changes fs =
         .ok true checks { fs with checksLastCsv := some (registryCsv checks) }) ∧
    (∀ (sc : Bool) (checks : List Check) (tts : List String),
       checksToCompile true sc checks tts = checks) := by
  constructor
  · intro fs checks hj hl
    simp [detect_checks_changes, hj, hl]
  · intro sc checks tts
    simp [checksToCompile]

/-- C6 (witness): on the fresh fixture state the first run reports a
registry change, and the scheduler selects all of A, B, C. -/
theorem registry_change_schedules_all_witness :
    detect_checks_changes fsFresh =
      .ok true checksABC { fsFresh with checksLastCsv := some (registryCsv checksABC) } ∧
    checksToCompile true true checksABC (targetTablesOf checksABC) = checksABC :=
  ⟨registry_change_schedules_all.1 fsFresh checksABC rfl rfl,
   registry_change_schedules_all.2 true checksABC (targetTablesOf checksABC)⟩

/-!
Claim C7: fatal registry load error.
-/

/-- C7: the registry detector errs exactly when checks.json is absent or
unparseable; in that case the whole run aborts with the state untouched
and no schedule computed (the regError outcome carries no schedule), and
otherwise the detector returns the change flag and the parsed registry. -/
theorem registry_load_error_iff (fs : FS) :
    (detect_checks_changes fs = .err ↔
       fs.checksJson = none ∨ fs.checksJson = some none) ∧
    (detect_checks_changes fs = .err →
       ∀ oracle now, runMain oracle now fs = .regError fs) ∧
    (∀ checks, fs.checksJson = some (some checks) →
       ∃ b fs₁, detect_checks_changes fs = .ok b checks fs₁) := by
  refine ⟨⟨?_, ?_⟩, ?_, ?_⟩
  · intro h
    cases hj : fs.checksJson with
    | none => exact Or.inl rfl
    | some o =>
      cases o with
      | none => exact Or.inr rfl
      | some cks =>
        exfalso
        cases hl : fs.checksLastCsv with
        | none => simp [detect_checks_changes, hj, hl] at h
        | some last =>
          simp only [detect_checks_changes, hj, hl] at h
          split at h <;> simp_all
  · rintro (h | h) <;> simp [detect_checks_changes, h]
  · intro h oracle now
    simp [runMain, h]
  · intro checks hj
    cases hl : fs.checksLastCsv with
    | none =>
      exact ⟨true, { fs with checksLastCsv := some (registryCsv checks) },
        by simp [detect_checks_changes, hj, hl]⟩
    | some last =>
      by_cases hne : _sha256 (registryCsv checks) ≠ _sha256 last
      · refine ⟨true, { fs with checksLastCsv := some (registryCsv checks) }, ?_⟩
        simp only [detect_checks_changes, hj, hl]
        rw [if_pos hne]
      · refine ⟨false, fs, ?_⟩
        simp only [detect_checks_changes, hj, hl]
        rw [if_neg hne]

/-- C7 (witness): a state with no checks.json errs and aborts the run
unchanged; the fresh fixture state loads normally. -/
theorem registry_load_error_iff_witness :
    detect_checks_changes fsNoReg = .err ∧
    runMain oraOk "T0" fsNoReg = .regError fsNoReg ∧
    ∃ b fs₁, detect_checks_changes fsFresh = .ok b checksABC fs₁ :=
  ⟨(registry_load_error_iff fsNoReg).1.mpr (Or.inl rfl),
   (registry_load_error_iff fsNoReg).2.1
     ((registry_load_error_iff fsNoReg).1.mpr (Or.inl rfl)) oraOk "T0",
   (registry_load_error_iff fsFresh).2.2 checksABC rfl⟩

/-!
Claim C8: atomicity of the cache flush.
-/

/-- C8 (counterexample): during save_workflows a concurrent reader can
observe the truncated empty file and strict prefixes of the new content,
none of which equal the previous or the new cache bytes: the flush is not
atomic for a reader. -/
theorem save_workflows_atomicity_cex :
    "" ∈ saveWorkflowsStates (save_workflows []) (save_workflows [("A::A", .num 1)]) ∧
    "" ≠ save_workflows [] ∧
    "" ≠ save_workflows [("A::A", .num 1)] ∧
    "\x7b\"A:" ∈ saveWorkflowsStates (save_workflows []) (save_workflows [("A::A", .num 1)]) ∧
    "\x7b\"A:" ≠ save_workflows [] ∧
    "\x7b\"A:" ≠ save_workflows [("A::A", .num 1)] := by
  refine ⟨by decide, by decide, by decide, by decide, by decide, by decide⟩

/-- C8 (amended): save_workflows writes the serialized cache in place at
its final path (truncate, then stream the bytes); the previous content
and every prefix of the new content are observable states for a
concurrent reader, and no temporary-file-plus-rename step exists. -/
theorem save_workflows_in_place (old newC : String) (i : Nat) (h : i ≤ newC.length) :
    old ∈ saveWorkflowsStates old newC ∧
    newC.take i ∈ saveWorkflowsStates old newC := by
  constructor
  · exact List.mem_cons_self _ _
  · refine List.mem_cons_of_mem _ ?_
    exact List.mem_map.mpr ⟨i, List.mem_range.mpr (Nat.lt_succ_of_le h), rfl⟩

/-- C8 (witness of the amended theorem): the half-written four-byte
prefix of a concrete new cache content is an observable state. -/
theorem save_workflows_in_place_witness :
    2 ≤ (save_workflows [("A::A", .num 1)]).length ∧
    (save_workflows [("A::A", .num 1)]).take 2 ∈
      saveWorkflowsStates (save_workflows []) (save_workflows [("A::A", .num 1)]) :=
  ⟨by decide,
   (save_workflows_in_place (save_workflows []) (save_workflows [("A::A", .num 1)]) 2
     (by decide)).2⟩

/-!
Claim C9: target_table normalization.
-/

/-- C9 (counterexample): for a list-valued target_table the code does not
drop empty entries; a blank list element normalizes to the empty string
and is kept. -/
theorem parse_targets_list_empties_cex :
    parse_targets (.arr [.str " ", .str " Orders "]) = ["", "orders"] ∧
    "" ∈ parse_targets (.arr [.str " ", .str " Orders "]) := by
  refine ⟨by decide, by decide⟩

/-- C9 (amended): for a string target the result is exactly the trimmed,
lower-cased, nonempty comma-pieces; for a list target every entry is
stringified, trimmed and lower-cased but empties are kept (the length is
preserved); a null target yields no tables; and a check whose
normalization is empty is never selected by the schema-change rule (the
scheduler path with the registry unchanged). -/
theorem parse_targets_normalization :
    (∀ s : String, ∀ t ∈ parse_targets (.str s),
       ∃ x ∈ pySplitComma s, pyStrip x ≠ "" ∧ t = pyLower (pyStrip x)) ∧
    (∀ s : String, ∀ x ∈ pySplitComma s, pyStrip x ≠ "" →
       pyLower (pyStrip x) ∈ parse_targets (.str s)) ∧
    (∀ xs : List JVal, (parse_targets (.arr xs)).length = xs.length) ∧
    (∀ xs : List JVal, ∀ x ∈ xs, pyLower (pyStrip (pyStr x)) ∈ parse_targets (.arr xs)) ∧
    parse_targets .null = [] ∧
    (∀ (sc : Bool) (checks : List Check) (tts : List String) (c : Check),
       parse_targets c.target_table = [] → c ∉ checksToCompile false sc checks tts) := by
  refine ⟨?_, ?_, ?_, ?_, rfl, ?_⟩
  · intro s t ht
    simp only [parse_targets, List.mem_map, List.mem_filter] at ht
    obtain ⟨x, ⟨hx, hne⟩, hval⟩ := ht
    exact ⟨x, hx, by simpa using hne, hval.symm⟩
  · intro s x hx hne
    simp only [parse_targets, List.mem_map, List.mem_filter]
    exact ⟨x, ⟨hx, by simpa using hne⟩, rfl⟩
  · intro xs
    simp [parse_targets]
  · intro xs x hx
    simp only [parse_targets, List.mem_map]
    exact ⟨x, hx, rfl⟩
  · intro sc checks tts c hempty hmem
    cases sc with
    | false => simp [checksToCompile] at hmem
    | true =>
      simp only [checksToCompile, Bool.false_or, if_true] at hmem
      have := (List.mem_filter.mp hmem).2
      rw [hempty] at this
      simp at this

/-- C9 (witness): concrete instances of each normalization clause, and
the null-target check is not scheduled by the schema-change rule. -/
theorem parse_targets_normalization_witness :
    (∃ x ∈ pySplitComma " Users ,orders", pyStrip x ≠ "" ∧ "users" = pyLower (pyStrip x)) ∧
    pyLower (pyStrip "orders") ∈ parse_targets (.str " Users ,orders") ∧
    (parse_targets (.arr [.str " "])).length = 1 ∧
    pyLower (pyStrip (pyStr (.str " "))) ∈ parse_targets (.arr [.str " "]) ∧
    parse_targets .null = [] ∧
    checkNull ∉ checksToCompile false true [checkNull] ["users"] :=
  ⟨parse_targets_normalization.1 " Users ,orders" "users" (by decide),
   parse_targets_normalization.2.1 " Users ,orders" "orders" (by decide) (by decide),
   parse_targets_normalization.2.2.1 [.str " "],
   parse_targets_normalization.2.2.2.1 [.str " "] (.str " ") (List.mem_cons_self _ _),
   parse_targets_normalization.2.2.2.2.1,
   parse_targets_normalization.2.2.2.2.2 true [checkNull] ["users"] checkNull (by decide)⟩

/-!
Claim C4: canonicalization determinism of the stable CSV.
-/

theorem lookupCell_rowAssoc {cols : List String} (hnd : cols.Nodup) (r : List JVal)
    (c : String) :
    lookupCell cols r c = ((rowAssoc cols r).lookup c).getD .null := by
  unfold lookupCell rowAssoc
  rw [lookup_perm c (sortOn_perm Prod.fst (cols.zip r)).symm
    ((map_fst_zip_sublist cols r).nodup hnd)]

theorem normRowsOf_perm {df1 df2 : DF} (hnd : df1.cols.Nodup) (heq : logicalEq df1 df2) :
    (normRowsOf df1).Perm (normRowsOf df2) := by
  obtain ⟨hcols, hrows⟩ := heq
  have hnd2 : df2.cols.Nodup := hcols.nodup_iff.mp hnd
  have hS : sortOn id df2.cols = sortOn id df1.cols := (sortOn_id_eq hcols).symm
  have h1 : normRowsOf df1 =
      (df1.rows.map (rowAssoc df1.cols)).map
        (fun a => (sortOn id df1.cols).map (fun c => normCell ((a.lookup c).getD .null))) := by
    simp only [normRowsOf, List.map_map]
    apply List.map_congr_left
    intro r _
    apply List.map_congr_left
    intro c _
    rw [lookupCell_rowAssoc hnd]
  have h2 : normRowsOf df2 =
      (df2.rows.map (rowAssoc df2.cols)).map
        (fun a => (sortOn id df1.cols).map (fun c => normCell ((a.lookup c).getD .null))) := by
    simp only [normRowsOf, List.map_map, hS]
    apply List.map_congr_left
    intro r _
    apply List.map_congr_left
    intro c _
    rw [lookupCell_rowAssoc hnd2]
  rw [h1, h2]
  exact hrows.map _

/-- C4 (counterexample): the tables dfPipe1 and dfPipe2 are logically
equal — identical columns, rows merely swapped — yet _stable_csv yields
different bytes, because the row sort key joins the cells with a pipe and
a cell containing the pipe makes two distinct rows tie, so the sort
leaves them in input order. -/
theorem stable_csv_determinism_cex :
    logicalEq dfPipe1 dfPipe2 ∧
    rowKey ["a|b", "c"] = rowKey ["a", "b|c"] ∧
    _stable_csv dfPipe1 ≠ _stable_csv dfPipe2 := by
  refine ⟨by decide, by decide, by decide⟩

/-- C4 (amended): for tables that are logically equal up to row and
column ordering, with no duplicate column names, _stable_csv is
byte-identical provided distinct rows receive distinct pipe-joined sort
keys (as holds whenever no stringified cell contains the pipe
delimiter); equal canonical bytes then hash equally under any hash
function. -/
theorem stable_csv_canonical {df1 df2 : DF}
    (hnd : df1.cols.Nodup)
    (heq : logicalEq df1 df2)
    (hinj : ∀ r1 ∈ normRowsOf df1, ∀ r2 ∈ normRowsOf df1, rowKey r1 = rowKey r2 → r1 = r2) :
    _stable_csv df1 = _stable_csv df2 ∧
    ∀ hash : String → String, hash (_stable_csv df1) = hash (_stable_csv df2) := by
  have hperm := normRowsOf_perm hnd heq
  have hsorted : sortOn id df1.cols = sortOn id df2.cols := sortOn_id_eq heq.1
  have hrows : sortOn rowKey (normRowsOf df1) = sortOn rowKey (normRowsOf df2) :=
    sortOn_eq_of_perm rowKey hperm hinj
  have hcsv : _stable_csv df1 = _stable_csv df2 := by
    unfold _stable_csv
    rw [hsorted, hrows]
  exact ⟨hcsv, fun hash => congrArg hash hcsv⟩

/-- C4 (witness): a concrete pair of tables with permuted rows and
columns and pipe-free cells canonicalizes to identical bytes. -/
theorem stable_csv_canonical_witness :
    dfPermA.cols.Nodup ∧ logicalEq dfPermA dfPermB ∧
    _stable_csv dfPermA = _stable_csv dfPermB := by
  have h := @stable_csv_canonical dfPermA dfPermB (by decide) (by decide) (by decide)
  exact ⟨by decide, by decide, h.1⟩

/-!
Lemmas about the two change detectors and the run as a whole, shared by
the frame and error-handling claims.
-/

theorem detect_checks_ok_state {fs : FS} {b : Bool} {checks : List Check} {fs₁ : FS}
    (h : detect_checks_changes fs = .ok b checks fs₁) :
    fs.checksJson = some (some checks) ∧
    fs₁ = { fs with checksLastCsv := some (registryCsv checks) } := by
  obtain ⟨j, lcsv, sc, wc, d⟩ := fs
  cases j with
  | none => simp [detect_checks_changes] at h
  | some o =>
    cases o with
    | none => simp [detect_checks_changes] at h
    | some cks =>
      cases lcsv with
      | none =>
        simp only [detect_checks_changes, DetectResult.ok.injEq] at h
        obtain ⟨hb, hc, hf⟩ := h
        subst hc
        exact ⟨rfl, hf.symm⟩
      | some last =>
        simp only [detect_checks_changes] at h
        by_cases hne : _sha256 (registryCsv cks) ≠ _sha256 last
        · rw [if_pos hne] at h
          simp only [DetectResult.ok.injEq] at h
          obtain ⟨hb, hc, hf⟩ := h
          subst hc
          exact ⟨rfl, hf.symm⟩
        · rw [if_neg hne] at h
          simp only [DetectResult.ok.injEq] at h
          obtain ⟨hb, hc, hf⟩ := h
          subst hc
          push_neg at hne
          have hlast : registryCsv cks = last := hne
          refine ⟨rfl, ?_⟩
          rw [← hf, hlast]

theorem detect_checks_stable {fs : FS} {checks : List Check}
    (hj : fs.checksJson = some (some checks))
    (hl : fs.checksLastCsv = some (registryCsv checks)) :
    detect_checks_changes fs = .ok false checks fs := by
  simp [detect_checks_changes, hj, hl]

theorem detect_schema_state {fs : FS} {tts : List String} {b : Bool} {cur : Schema}
    {fs₁ : FS} (h : detect_schema_changes fs tts = (b, cur, fs₁)) :
    cur = tts.map (fun t => (t, loadColsOf fs t)) ∧
    fs₁.checksJson = fs.checksJson ∧ fs₁.checksLastCsv = fs.checksLastCsv ∧
    fs₁.workflowCache = fs.workflowCache ∧ fs₁.data = fs.data ∧
    ∃ prev, fs₁.schemaCols = some prev ∧ dictEqS prev cur = true := by
  obtain ⟨j, lcsv, sc, wc, d⟩ := fs
  cases sc with
  | none =>
    simp only [detect_schema_changes, Prod.mk.injEq] at h
    obtain ⟨hb, hc, hf⟩ := h
    subst hc
    subst hf
    exact ⟨rfl, rfl, rfl, rfl, rfl, _, rfl, dictEqS_refl _⟩
  | some prev =>
    simp only [detect_schema_changes] at h
    by_cases hde :
        dictEqS prev (tts.map (fun t => (t, loadColsOf (FS.mk j lcsv (some prev) wc d) t))) = true
    · rw [if_pos hde] at h
      simp only [Prod.mk.injEq] at h
      obtain ⟨hb, hc, hf⟩ := h
      subst hc
      subst hf
      exact ⟨rfl, rfl, rfl, rfl, rfl, prev, rfl, hde⟩
    · rw [if_neg hde] at h
      simp only [Prod.mk.injEq] at h
      obtain ⟨hb, hc, hf⟩ := h
      subst hc
      subst hf
      exact ⟨rfl, rfl, rfl, rfl, rfl, _, rfl, dictEqS_refl _⟩

theorem detect_schema_stable {fs : FS} {tts : List String} {b : Bool} {cur : Schema}
    {fs₁ : FS} (h : detect_schema_changes fs tts = (b, cur, fs₁)) :
    detect_schema_changes fs₁ tts = (false, cur, fs₁) := by
  obtain ⟨hcur, hj, hl, hw, hd, prev, hsc, hde⟩ := detect_schema_state h
  have hcur₁ : tts.map (fun t => (t, loadColsOf fs₁ t)) = cur := by
    rw [hcur]
    apply List.map_congr_left
    intro t _
    simp [loadColsOf, hd]
  simp only [detect_schema_changes, hsc, hcur₁]
  rw [if_pos hde]

theorem run_after_detectors {fs : FS} {b sc : Bool} {checks : List Check} {cur : Schema}
    {fs₁ fs₂ : FS}
    (h1 : detect_checks_changes fs = .ok b checks fs₁)
    (h2 : detect_schema_changes fs₁ (targetTablesOf checks) = (sc, cur, fs₂)) :
    detect_checks_changes fs₂ = .ok false checks fs₂ ∧
    detect_schema_changes fs₂ (targetTablesOf checks) = (false, cur, fs₂) ∧
    fs₂.workflowCache = fs.workflowCache ∧
    (∀ oracle now, runMain oracle now fs₂ = .ok fs₂ [] 0) := by
  obtain ⟨hj, hfs₁⟩ := detect_checks_ok_state h1
  obtain ⟨hcur, hj2, hl2, hw2, hd2, prev, hsc2, hde⟩ := detect_schema_state h2
  have hcs : detect_checks_changes fs₂ = .ok false checks fs₂ := by
    apply detect_checks_stable
    · rw [hj2, hfs₁]
      exact hj
    · rw [hl2, hfs₁]
  have hss := detect_schema_stable h2
  refine ⟨hcs, hss, ?_, ?_⟩
  · rw [hw2, hfs₁]
  · intro oracle now
    simp [runMain, hcs, hss, checksToCompile]

theorem compileAll_error (oracle : Check → Option (JVal × JVal)) (now chash : String)
    (sctx : Schema) (c : Check) (hc : oracle c = none) :
    ∀ (pre : List Check) (wf : List (String × JVal)) (post : List Check),
      (∀ p ∈ pre, oracle p ≠ none) →
      compileAll oracle now chash sctx wf (pre ++ c :: post) = .error (key_for c) := by
  intro pre
  induction pre with
  | nil =>
    intro wf post _
    simp [compileAll, hc]
  | cons p ps ih =>
    intro wf post hpre
    have hp := hpre p (List.mem_cons_self p ps)
    obtain ⟨v, hv⟩ := Option.ne_none_iff_exists.mp hp
    simp only [List.cons_append, compileAll]
    rw [← hv]
    exact ih _ post (fun q hq => hpre q (List.mem_cons_of_mem p hq))

/-!
Claim C3: idempotence and zero writes on no change.
-/

/-- C3: after any completed pass of the two detectors, running them again
with the registry and the observed data unchanged reports no change from
both and returns the state untouched (no snapshot written), and a whole
second run schedules nothing, compiles nothing and leaves every
persisted file, the workflow cache included, exactly as it was. -/
theorem detectors_idempotent {fs fs₁ fs₂ : FS} {b₁ sc₁ : Bool} {checks : List Check}
    {cur₁ : Schema}
    (h1 : detect_checks_changes fs = .ok b₁ checks fs₁)
    (h2 : detect_schema_changes fs₁ (targetTablesOf checks) = (sc₁, cur₁, fs₂)) :
    detect_checks_changes fs₂ = .ok false checks fs₂ ∧
    detect_schema_changes fs₂ (targetTablesOf checks) = (false, cur₁, fs₂) ∧
    ∀ oracle now, runMain oracle now fs₂ = .ok fs₂ [] 0 := by
  obtain ⟨a, b, _, c⟩ := run_after_detectors h1 h2
  exact ⟨a, b, c⟩

/-- C3 (witness): on the fixture state left by a first detector pass both
detectors report no change and a full run returns the state unchanged
with an empty schedule. -/
theorem detectors_idempotent_witness :
    detect_checks_changes fsStable = .ok false checksABC fsStable ∧
    detect_schema_changes fsStable (targetTablesOf checksABC) = (false, dataABC, fsStable) ∧
    runMain oraOk "T1" fsStable = .ok fsStable [] 0 := by
  have h := @detectors_idempotent fsFresh fsMid fsStable true true checksABC dataABC
    (by decide) (by decide)
  exact ⟨h.1, h.2.1, h.2.2 oraOk "T1"⟩

/-!
Claim C5: snapshots are committed during detection, before compilation.
-/

/-- C5: when a run aborts inside the compilation loop, the detectors have
already overwritten the snapshots, so a subsequent run on the resulting
state (with no further edits) reports no change, schedules nothing and
changes nothing; yet the aborted run never wrote the workflow cache, so
no entry was refreshed. -/
theorem aborted_run_then_clean {oracle : Check → Option (JVal × JVal)} {now : String}
    {fs fs₁ : FS} {k : String}
    (h : runMain oracle now fs = .compileError fs₁ k) :
    fs₁.workflowCache = fs.workflowCache ∧
    ∀ oracle2 now2, runMain oracle2 now2 fs₁ = .ok fs₁ [] 0 := by
  simp only [runMain] at h
  split at h
  · simp at h
  · rename_i b checks fsA heq
    split at h
    · simp at h
    · split at h
      · rename_i k0 hcomp
        simp only [RunResult.compileError.injEq] at h
        obtain ⟨hf, hk⟩ := h
        obtain ⟨_, _, hw, hrun⟩ := run_after_detectors heq
          (rfl :
            detect_schema_changes fsA (targetTablesOf checks) =
              ((detect_schema_changes fsA (targetTablesOf checks)).1,
               (detect_schema_changes fsA (targetTablesOf checks)).2.1,
               (detect_schema_changes fsA (targetTablesOf checks)).2.2))
        rw [← hf]
        exact ⟨hw, hrun⟩
      · simp at h

/-- C5 (witness): a first run on fresh state whose oracle raises on check
B aborts, after which a second run with any oracle reports no change and
leaves the state alone, with the cache file never having been written. -/
theorem aborted_run_then_clean_witness :
    fsStable.workflowCache = fsFresh.workflowCache ∧
    runMain oraOk "T1" fsStable = .ok fsStable [] 0 := by
  have h := @aborted_run_then_clean oracleFailB "T0" fsFresh fsStable "B::B" (by decide)
  exact ⟨h.1, h.2 oraOk "T1"⟩

/-!
Claim C2: failure isolation of the compilation loop.
-/

/-- C2 (counterexample): with checks A, B, C all scheduled and an oracle
that fails exactly on B while it would compile A and C, the run does not
continue past B — it aborts — and the cache file afterwards holds no
entry at all, in particular no fresh entry for A, which had compiled
successfully earlier in the same run. -/
theorem compile_failure_isolation_cex :
    (runMain oracleFailB "T0" fsFresh).wasAborted = true ∧
    (runMain oracleFailB "T0" fsFresh).state.workflowCache = none ∧
    oracleFailB checkA = some (.str "p", .str "e") ∧
    oracleFailB checkC = some (.str "p", .str "e") ∧
    checksToCompile true true checksABC (targetTablesOf checksABC) =
      [checkA, checkB, checkC] := by
  refine ⟨by decide, by decide, by rfl, by rfl, by decide⟩

/-- C2 (amended): when the oracle raises for a scheduled check, the run
aborts at the first failing check instead of continuing: checks after it
are never attempted and the cache file is not written at all, so every
entry — including those of checks that compiled successfully earlier in
the run — keeps its exact pre-run state. -/
theorem compile_failure_aborts_run {oracle : Check → Option (JVal × JVal)} {now : String}
    {fs fs₁ fs₂ : FS} {b sc : Bool} {checks pre post : List Check} {c : Check}
    {cur : Schema}
    (h1 : detect_checks_changes fs = .ok b checks fs₁)
    (h2 : detect_schema_changes fs₁ (targetTablesOf checks) = (sc, cur, fs₂))
    (hsched : checksToCompile b sc checks (targetTablesOf checks) = pre ++ c :: post)
    (hpre : ∀ p ∈ pre, oracle p ≠ none)
    (hc : oracle c = none) :
    runMain oracle now fs = .compileError fs₂ (key_for c) ∧
    fs₂.workflowCache = fs.workflowCache := by
  constructor
  · simp only [runMain, h1, h2]
    rw [hsched]
    have hne : (pre ++ c :: post).isEmpty = false := by cases pre <;> simp
    rw [hne]
    simp only [Bool.false_eq_true, if_false]
    rw [compileAll_error oracle now _ _ c hc pre _ post hpre]
  · obtain ⟨_, _, hw, _⟩ := run_after_detectors h1 h2
    exact hw

/-- C2 (witness of the amended theorem): the concrete aborted run of the
counterexample scenario, through the general theorem. -/
theorem compile_failure_aborts_run_witness :
    runMain oracleFailB "T0" fsFresh = .compileError fsStable (key_for checkB) ∧
    fsStable.workflowCache = fsFresh.workflowCache := by
  have h := @compile_failure_aborts_run oracleFailB "T0" fsFresh fsMid fsStable true true
    checksABC [checkA] [checkC] checkB dataABC (by decide) (by decide) (by decide)
    (by decide) (by rfl)
  exact ⟨h.1, h.2⟩

/-!
Claim C10: corrupt-cache degradation.
-/

/-- C10: loading the workflow cache is total — a missing file and a file
the JSON parser rejects both yield the empty mapping, and a parseable
file yields exactly its parsed contents. -/
theorem load_workflows_never_raises (s : String) :
    load_workflows none = .obj [] ∧
    (jsonParse s = none → load_workflows (some s) = .obj []) ∧
    (∀ v, jsonParse s = some v → load_workflows (some s) = v) := by
  refine ⟨rfl, ?_, ?_⟩
  · intro h
    simp [load_workflows, h]
  · intro v h
    simp [load_workflows, h]

/-- C10 (witness): a concrete corrupt cache file loads as empty and a
concrete well-formed one loads as its contents. -/
theorem load_workflows_never_raises_witness :
    load_workflows (some "\x7bnot json") = .obj [] ∧
    load_workflows (some "\x7b\"k\": [1]\x7d") = .obj [("k", .arr [.num 1])] ∧
    load_workflows none = .obj [] :=
  ⟨(load_workflows_never_raises "\x7bnot json").2.1 (by decide),
   (load_workflows_never_raises "\x7b\"k\": [1]\x7d").2.2 (.obj [("k", .arr [.num 1])])
     (by decide),
   (load_workflows_never_raises "").1⟩

end AgentSpec
